import Mathlib

/-!
Verification of the PDF conversion pipeline of the openapi-converter repository.

The definitions below are a shallow embedding of the Go source:
the document model comes from internal/domain/openapi.go, and the
planning / rendering functions come from the PDF converter
(collectTOC, groupPathsByTag, collectTagComponents, collectSchemaRefs,
addContent, setLinkDest, checkPageBreak, addTableRow, addResponseTable,
addTagComponents).  Go maps are modelled as association lists (the list
order stands for the iteration order of the map, which Go randomises);
map reads use first-match lookup and, where the Go code reads a possibly
missing key, the Go zero value.  The gofpdf link allocator AddLink is
modelled as a counter that starts at 1 and increases by 1 per call, so
every allocated identifier is positive and 0 means "no link".
Floating point page coordinates are modelled over the rationals.
-/

namespace OpenAPIConv

/-- Decidability of the lexicographic string order through the character lists, so
that concrete instances evaluate inside the kernel (the built-in instance goes
through a well-founded iterator loop that does not reduce).  Go compares strings
byte by byte; UTF-8 byte order agrees with code-point order, so this is the same
ordering. -/
instance decStrLT (a b : String) : Decidable (a < b) :=
  decidable_of_iff (a.data < b.data) String.lt_iff_toList_lt.symm

/-- Decidability of the lexicographic string order, see decStrLT. -/
instance decStrLE (a b : String) : Decidable (a ≤ b) :=
  decidable_of_iff (¬ b.data < a.data) (by
    rw [← not_lt]
    exact not_congr String.lt_iff_toList_lt.symm)

/-- domain.Schema: Type, Format, Description, Properties (a Go map, modelled as an
association list), Items, Ref.  Recursive, hence an inductive type. -/
inductive Schema : Type where
  | mk (type format description : String)
       (properties : List (String × Schema))
       (items : Option Schema)
       (ref : String)

mutual
/-- Boolean structural equality on Schema (DecidableEq cannot be derived for this
nested inductive). -/
def Schema.beq : Schema → Schema → Bool
  | .mk t1 f1 d1 p1 i1 r1, .mk t2 f2 d2 p2 i2 r2 =>
    t1 == t2 && (f1 == f2 && (d1 == d2 &&
      (Schema.beqProps p1 p2 && (Schema.beqItems i1 i2 && r1 == r2))))

def Schema.beqProps : List (String × Schema) → List (String × Schema) → Bool
  | [], [] => true
  | (n1, s1) :: r1, (n2, s2) :: r2 =>
    n1 == n2 && (Schema.beq s1 s2 && Schema.beqProps r1 r2)
  | _, _ => false

def Schema.beqItems : Option Schema → Option Schema → Bool
  | none, none => true
  | some s1, some s2 => Schema.beq s1 s2
  | _, _ => false
end

mutual
theorem Schema.beq_iff : ∀ (a b : Schema), Schema.beq a b = true ↔ a = b
  | .mk t1 f1 d1 p1 i1 r1, .mk t2 f2 d2 p2 i2 r2 => by
    simp only [Schema.beq, Bool.and_eq_true, beq_iff_eq,
      Schema.beqProps_iff p1 p2, Schema.beqItems_iff i1 i2, Schema.mk.injEq]

theorem Schema.beqProps_iff :
    ∀ (a b : List (String × Schema)), Schema.beqProps a b = true ↔ a = b
  | [], [] => by simp [Schema.beqProps]
  | (n1, s1) :: r1, (n2, s2) :: r2 => by
    simp only [Schema.beqProps, Bool.and_eq_true, beq_iff_eq,
      Schema.beq_iff s1 s2, Schema.beqProps_iff r1 r2, List.cons.injEq,
      Prod.mk.injEq]
    tauto
  | [], (_, _) :: _ => by simp [Schema.beqProps]
  | (_, _) :: _, [] => by simp [Schema.beqProps]

theorem Schema.beqItems_iff :
    ∀ (a b : Option Schema), Schema.beqItems a b = true ↔ a = b
  | none, none => by simp [Schema.beqItems]
  | some s1, some s2 => by simp [Schema.beqItems, Schema.beq_iff s1 s2]
  | none, some _ => by simp [Schema.beqItems]
  | some _, none => by simp [Schema.beqItems]
end

instance : DecidableEq Schema := fun a b =>
  decidable_of_iff _ (Schema.beq_iff a b)

def Schema.type : Schema → String
  | .mk t _ _ _ _ _ => t

def Schema.format : Schema → String
  | .mk _ f _ _ _ _ => f

def Schema.description : Schema → String
  | .mk _ _ d _ _ _ => d

def Schema.properties : Schema → List (String × Schema)
  | .mk _ _ _ p _ _ => p

def Schema.items : Schema → Option Schema
  | .mk _ _ _ _ i _ => i

def Schema.ref : Schema → String
  | .mk _ _ _ _ _ r => r

/-- domain.MediaType.  The Example payload is never inspected by the layout logic, kept
as an optional string; Examples is a Go map name-to-payload. -/
structure MediaType where
  schema : Schema
  exampleVal : Option String
  examples : List (String × String)
deriving DecidableEq

/-- domain.Parameter.  The Go field In is named loc here. -/
structure Parameter where
  name : String
  loc : String
  description : String
  required : Bool
  schema : Schema
deriving DecidableEq

/-- domain.RequestBody; Content is a Go map content-type to MediaType. -/
structure RequestBody where
  description : String
  required : Bool
  content : List (String × MediaType)
deriving DecidableEq

/-- domain.Response; Content is a Go map content-type to MediaType. -/
structure Response where
  statusCode : String
  description : String
  content : List (String × MediaType)
deriving DecidableEq

/-- domain.Operation. -/
structure Operation where
  method : String
  summary : String
  description : String
  operationID : String
  tags : List String
  parameters : List Parameter
  requestBody : Option RequestBody
  responses : List Response
deriving DecidableEq

/-- domain.Path. -/
structure Path where
  path : String
  operations : List Operation
deriving DecidableEq

/-- domain.Server. -/
structure Server where
  url : String
  description : String
deriving DecidableEq

/-- domain.Tag. -/
structure Tag where
  name : String
  description : String
deriving DecidableEq

/-- domain.OpenAPIDocument (the fields the PDF converter reads).  Components is a Go
map schema-name to Schema. -/
structure OpenAPIDocument where
  title : String
  version : String
  description : String
  servers : List Server
  tags : List Tag
  paths : List Path
  components : List (String × Schema)
deriving DecidableEq

/-- endpointRef of the PDF converter: a flattened view of one operation under one
path, duplicated per tag. -/
structure EndpointRef where
  path : String
  method : String
  operation : Operation
deriving DecidableEq

/-- tocItem of the PDF converter (the page field is never read back by the logic we
verify, so it is omitted). -/
structure TocItem where
  title : String
  level : Nat
  linkID : Nat
deriving DecidableEq

/-- strings.Split with a one-character separator, over the character list (the
built-in String.splitOn does not reduce inside the kernel).  Like Go, splitting
the empty string yields one empty part, and a trailing separator yields a final
empty part. -/
def splitOnChar (sep : Char) : List Char → List (List Char)
  | [] => [[]]
  | c :: rest =>
    if c = sep then [] :: splitOnChar sep rest
    else
      match splitOnChar sep rest with
      | [] => [[c]]
      | g :: gs => (c :: g) :: gs

/-- extractRefName: strings.Split(ref, "/") and take the last part.  Go Split never
returns an empty slice, so the branch returning ref bare is dead; getLastD mirrors
that. -/
def extractRefName (ref : String) : String :=
  ⟨(splitOnChar '/' ref.data).getLastD ref.data⟩

/-- The effective tag list of an operation inside groupPathsByTag: the declared tags,
or the singleton Default when the declared list is empty. -/
def effectiveTags (op : Operation) : List String :=
  if op.tags = [] then ["Default"] else op.tags

/-- The (tag, endpointRef) pairs one operation of one path contributes in
groupPathsByTag: one pair per effective tag, each carrying the whole operation. -/
def opRefs (p : Path) (op : Operation) : List (String × EndpointRef) :=
  (effectiveTags op).map fun t => (t, ⟨p.path, op.method, op⟩)

/-- All (tag, endpointRef) pairs appended by the nested loops of groupPathsByTag, in
source order. -/
def taggedRefs (doc : OpenAPIDocument) : List (String × EndpointRef) :=
  doc.paths.flatMap fun p => p.operations.flatMap fun op => opRefs p op

/-- The per-tag slice of the groupPathsByTag result map before the final sort. -/
def tagRefsPre (doc : OpenAPIDocument) (t : String) : List EndpointRef :=
  (taggedRefs doc).filterMap fun x => if x.1 = t then some x.2 else none

/-- The comparison used by sort.Slice in groupPathsByTag, as a reflexive total
preorder: path ascending, then method ascending, plain string comparison. -/
def epLE (a b : EndpointRef) : Prop :=
  a.path < b.path ∨ (a.path = b.path ∧ a.method ≤ b.method)

instance : DecidableRel epLE := fun a b =>
  inferInstanceAs (Decidable (a.path < b.path ∨ (a.path = b.path ∧ a.method ≤ b.method)))

instance : IsTotal EndpointRef epLE where
  total a b := by
    rcases lt_trichotomy a.path b.path with h | h | h
    · exact Or.inl (Or.inl h)
    · rcases le_total a.method b.method with hm | hm
      · exact Or.inl (Or.inr ⟨h, hm⟩)
      · exact Or.inr (Or.inr ⟨h.symm, hm⟩)
    · exact Or.inr (Or.inl h)

instance : IsTrans EndpointRef epLE where
  trans a b c hab hbc := by
    rcases hab with h1 | ⟨h1, m1⟩
    · rcases hbc with h2 | ⟨h2, m2⟩
      · exact Or.inl (h1.trans h2)
      · exact Or.inl (h2 ▸ h1)
    · rcases hbc with h2 | ⟨h2, m2⟩
      · exact Or.inl (h1 ▸ h2)
      · exact Or.inr ⟨h1.trans h2, m1.trans m2⟩

/-- groupPathsByTag, read at one tag: group, then sort by (path, method). -/
def groupPathsByTag (doc : OpenAPIDocument) (t : String) : List EndpointRef :=
  List.insertionSort epLE (tagRefsPre doc t)

/-- The key set of the groupPathsByTag result map. -/
def tagKeys (doc : OpenAPIDocument) : List String :=
  ((taggedRefs doc).map Prod.fst).dedup

/-- The sorted tag list both passes build with sort.Strings. -/
def sortedTags (doc : OpenAPIDocument) : List String :=
  List.insertionSort (· ≤ ·) (tagKeys doc)

mutual
/-- collectSchemaRefs: record the (extracted) name of a non-empty Ref, then recurse
into every property schema and into the array item schema. -/
def collectSchemaRefs : Schema → List String
  | .mk _ _ _ props items ref =>
    (if ref = "" then [] else [extractRefName ref]) ++
      collectPropsRefs props ++ collectItemsRefs items

def collectPropsRefs : List (String × Schema) → List String
  | [] => []
  | (_, s) :: rest => collectSchemaRefs s ++ collectPropsRefs rest

def collectItemsRefs : Option Schema → List String
  | none => []
  | some s => collectSchemaRefs s
end

/-- The refs contributed by the media types of one Go content map. -/
def mediaRefs (content : List (String × MediaType)) : List String :=
  content.flatMap fun m => collectSchemaRefs m.2.schema

/-- The refs one endpoint contributes in collectTagComponents: request body content,
then responses content, then parameter schemas, exactly as the source walks them. -/
def endpointSchemaRefs (ep : EndpointRef) : List String :=
  (match ep.operation.requestBody with
   | some rb => mediaRefs rb.content
   | none => []) ++
  (ep.operation.responses.flatMap fun r => mediaRefs r.content) ++
  (ep.operation.parameters.flatMap fun p => collectSchemaRefs p.schema)

/-- collectTagComponents: a set (modelled by dedup) of every ref reachable from the
endpoints of a tag, converted to a slice and sorted with sort.Strings. -/
def collectTagComponents (eps : List EndpointRef) : List String :=
  List.insertionSort (· ≤ ·) ((eps.flatMap endpointSchemaRefs).dedup)

/-! ### collectTOC: pass 1 (planning / link pre-allocation)

gofpdf AddLink is a counter starting at 1; collectTOC threads it through the
allocations in source order: Overview, Servers (only when servers are present),
then one link per (tag, component) key, then API Endpoints, then per sorted tag a
level-2 entry followed by one level-3 entry per sorted endpoint. -/

/-- How many links the optional Servers entry consumes. -/
def serversLinkCount (doc : OpenAPIDocument) : Nat :=
  if doc.servers = [] then 0 else 1

/-- The per-tag blocks both passes traverse: the sorted tags, each with its sorted
endpoint list (both passes call groupPathsByTag on the same document). -/
def tagBlocks (doc : OpenAPIDocument) : List (String × List EndpointRef) :=
  (sortedTags doc).map fun t => (t, groupPathsByTag doc t)

/-- The component-link keys written into componentLinks during collectTOC, in
allocation order: for each sorted tag, each sorted component name, key
tag ++ ":" ++ name. -/
def compKeys (doc : OpenAPIDocument) : List String :=
  (sortedTags doc).flatMap fun t =>
    (collectTagComponents (groupPathsByTag doc t)).map fun n => t ++ ":" ++ n

/-- Sequential map writes key := AddLink(): the write for the head happens first
(identifier s), later writes win on key collision, mirroring Go map assignment. -/
def assignIDs : List String → Nat → String → Option Nat
  | [], _, _ => none
  | k :: ks, s, q =>
    match assignIDs ks (s + 1) q with
    | some v => some v
    | none => if q = k then some s else none

/-- The AddLink counter value when component-link allocation begins: Overview took
1, Servers (when present) took 2. -/
def compStart (doc : OpenAPIDocument) : Nat :=
  2 + serversLinkCount doc

/-- The componentLinks map after collectTOC. -/
def componentLinks (doc : OpenAPIDocument) : String → Option Nat :=
  assignIDs (compKeys doc) (compStart doc)

/-- The link identifier the API Endpoints TOC entry receives. -/
def apiSectionLinkID (doc : OpenAPIDocument) : Nat :=
  compStart doc + (compKeys doc).length

/-- The level-3 TOC entries of the endpoints of one tag, threading the AddLink
counter. -/
def epTocItems : List EndpointRef → Nat → List TocItem
  | [], _ => []
  | e :: es, n => ⟨e.method ++ " " ++ e.path, 3, n⟩ :: epTocItems es (n + 1)

/-- The level-2 / level-3 TOC entries of the tag sections, threading the AddLink
counter. -/
def tagTocItems : List (String × List EndpointRef) → Nat → List TocItem
  | [], _ => []
  | (t, eps) :: rest, n =>
    ⟨t, 2, n⟩ :: (epTocItems eps (n + 1) ++ tagTocItems rest (n + 1 + eps.length))

/-- The TOC entry list built by collectTOC, with the link identifiers AddLink hands
out. -/
def tocItems (doc : OpenAPIDocument) : List TocItem :=
  ⟨"Overview", 1, 1⟩ ::
    ((if doc.servers = [] then [] else [⟨"Servers", 1, 2⟩]) ++
      ⟨"API Endpoints", 1, apiSectionLinkID doc⟩ ::
        tagTocItems (tagBlocks doc) (apiSectionLinkID doc + 1))

/-! ### addContent: pass 2 (render), TOC-target consumption

addContent keeps a tocIndex counter starting at 0 and calls
setLinkDest(tocIndex-then-increment) once for Overview, once for Servers when
servers are present, once for API Endpoints, then once per tag section and once
per endpoint of that tag.  addEndpointsSummary only reads tocItems, it does not
bind targets. -/

/-- The indices the per-endpoint setLinkDest calls of one tag section consume. -/
def epConsume : List EndpointRef → Nat → List Nat
  | [], _ => []
  | _ :: es, n => n :: epConsume es (n + 1)

/-- The indices the tag sections consume: the tag header, then its endpoints. -/
def tagConsume : List (String × List EndpointRef) → Nat → List Nat
  | [], _ => []
  | (_, eps) :: rest, n =>
    n :: (epConsume eps (n + 1) ++ tagConsume rest (n + 1 + eps.length))

/-- The whole sequence of tocItems indices addContent passes to setLinkDest, in
call order. -/
def consumedIndices (doc : OpenAPIDocument) : List Nat :=
  0 :: ((if doc.servers = [] then [] else [1]) ++
    (1 + serversLinkCount doc) ::
      tagConsume (tagBlocks doc) (2 + serversLinkCount doc))

/-! ### addTagComponents: component rendering and link binding -/

/-- The component sections one tag renders: addTagComponents skips (continue) every
collected name with no entry in the document components map and renders the rest
in order. -/
def renderedTagComponents (componentNames : List String)
    (components : List (String × Schema)) : List (String × Schema) :=
  componentNames.filterMap fun n => (components.lookup n).map fun s => (n, s)

/-- The SetLink bind events of one tag section of addTagComponents: for each
collected name whose schema exists, when the componentLinks map holds the
tag ++ ":" ++ name key, the target is bound here (inside this tag section). -/
def tagComponentBindings (doc : OpenAPIDocument) (t : String) : List (String × Nat) :=
  (collectTagComponents (groupPathsByTag doc t)).filterMap fun n =>
    if (doc.components.lookup n).isSome then
      match componentLinks doc (t ++ ":" ++ n) with
      | some v => some (n, v)
      | none => none
    else none

/-- All component bind events of the render pass, grouped in the order of the tag
sections. -/
def componentBindings (doc : OpenAPIDocument) : List (String × String × Nat) :=
  (sortedTags doc).flatMap fun t =>
    (tagComponentBindings doc t).map fun x => (t, x.1, x.2)

/-! ### Page layout: checkPageBreak and addTableRow -/

/-- The page geometry the drawing surface reports (GetPageSize / GetMargins). -/
structure PageGeom where
  pageHeight : ℚ
  topMargin : ℚ
  bottomMargin : ℚ

/-- The layout cursor: vertical position and current page. -/
structure LayoutState where
  y : ℚ
  page : Nat
deriving DecidableEq

/-- AddPage: a fresh page with the cursor at the top margin. -/
def addPage (g : PageGeom) (s : LayoutState) : LayoutState :=
  ⟨g.topMargin, s.page + 1⟩

/-- checkPageBreak: start a new page when the pending height would cross
pageHeight - bottomMargin - 10. -/
def checkPageBreak (g : PageGeom) (height : ℚ) (s : LayoutState) : LayoutState :=
  if s.y + height > g.pageHeight - g.bottomMargin - 10 then addPage g s else s

/-- The maxLines loop of addTableRow: fold of max over the per-cell wrapped line
counts, starting at 1; splitLines is the SplitLines text-measurement primitive of
the drawing surface. -/
def rowMaxLines (splitLines : String → ℚ → Nat) :
    List (String × ℚ) → Nat → Nat
  | [], acc => acc
  | (content, w) :: rest, acc =>
    rowMaxLines splitLines rest (max acc (splitLines content w))

/-- The row height addTableRow computes before drawing: maxLines times the base
cell line height 5.0. -/
def rowHeight (splitLines : String → ℚ → Nat) (cells : List (String × ℚ)) : ℚ :=
  (rowMaxLines splitLines cells 1 : ℚ) * 5

/-- addTableRow, cursor-wise: measure the row, run checkPageBreak with the measured
height, draw at the resulting cursor, finish one row height lower.  Returns the
final state and the y position the row was drawn at. -/
def addTableRowLayout (g : PageGeom) (splitLines : String → ℚ → Nat)
    (cells : List (String × ℚ)) (s : LayoutState) : LayoutState × ℚ :=
  let h := rowHeight splitLines cells
  let s2 := checkPageBreak g h s
  (⟨s2.y + h, s2.page⟩, s2.y)

/-! ### addTableRow: per-cell style and link overlay -/

/-- What addTableRow emits for one cell: the text, whether the link text style
(blue) was applied, and the clickable region link, if one was overlaid. -/
structure RenderedCell where
  text : String
  linkStyled : Bool
  linkRegion : Option Nat
deriving DecidableEq

/-- A Go map read of a missing key yields the zero value; componentLinks reads in
the render pass use exactly this. -/
def goMapGet (m : String → Option Nat) (k : String) : Nat :=
  (m k).getD 0

/-- One cell of addTableRow: only a positive linkID switches the text style and
overlays a clickable region; 0 leaves the default style and attaches nothing. -/
def renderCell (content : String) (linkID : Nat) : RenderedCell :=
  ⟨content, decide (0 < linkID), if 0 < linkID then some linkID else none⟩

/-! ### addResponseTable: the Object column of one response row

The source iterates the Content map of the response; the argument list order here
models the iteration order Go chooses for that map.  The first media type carrying
a Ref wins and stops the loop; otherwise the last non-empty plain Type seen is
kept. -/

/-- The Object cell of one response row of addResponseTable as a function of the
map iteration order. -/
def respObjectCell : List (String × MediaType) → String → String
  | [], acc => acc
  | (_, media) :: rest, acc =>
    if media.schema.ref ≠ "" then extractRefName media.schema.ref
    else if media.schema.type ≠ "" then respObjectCell rest media.schema.type
    else respObjectCell rest acc

/-! ## Theorems -/

/-- Helper: the rendered component names of a tag section are exactly the collected
names that are present in the components map, in order. -/
theorem renderedTagComponents_fst (names : List String)
    (components : List (String × Schema)) :
    (renderedTagComponents names components).map Prod.fst =
      names.filter fun m => (components.lookup m).isSome := by
  induction names with
  | nil => rfl
  | cons m rest ih =>
    simp only [renderedTagComponents, List.filterMap_cons] at *
    cases hm : components.lookup m with
    | none => simp [hm, List.filter_cons, ih]
    | some s => simp [hm, List.filter_cons, ih]

/-- Claim C3: whenever the cursor position plus the precomputed height of a table
row would cross pageHeight - bottomMargin, addTableRow starts a new page and draws
the row at the top margin of the new page (the source breaks even 10 units
earlier). -/
theorem c3_row_never_drawn_below_bottom (g : PageGeom)
    (splitLines : String → ℚ → Nat) (cells : List (String × ℚ)) (s : LayoutState)
    (h : s.y + rowHeight splitLines cells > g.pageHeight - g.bottomMargin) :
    (addTableRowLayout g splitLines cells s).2 = g.topMargin ∧
    (addTableRowLayout g splitLines cells s).1.page = s.page + 1 := by
  have hbreak : s.y + rowHeight splitLines cells >
      g.pageHeight - g.bottomMargin - 10 := by linarith
  simp only [addTableRowLayout, checkPageBreak, addPage]
  rw [if_pos hbreak]
  exact ⟨rfl, rfl⟩

/-- Witness for C3 at a concrete geometry: an A4-like page of height 297 with
bottom margin 20 and top margin 10, a two-line row (height 10) at cursor 280. -/
theorem c3_row_never_drawn_below_bottom_witness :
    (280 : ℚ) + rowHeight (fun _ _ => 2) [("x", 50)] > 297 - 20 ∧
    (addTableRowLayout ⟨297, 10, 20⟩ (fun _ _ => 2) [("x", 50)]
      ⟨280, 3⟩).2 = 10 ∧
    (addTableRowLayout ⟨297, 10, 20⟩ (fun _ _ => 2) [("x", 50)]
      ⟨280, 3⟩).1.page = 4 := by
  have h : (280 : ℚ) + rowHeight (fun _ _ => 2) [("x", 50)] > 297 - 20 := by
    norm_num [rowHeight, rowMaxLines]
  exact ⟨h, (c3_row_never_drawn_below_bottom ⟨297, 10, 20⟩ (fun _ _ => 2)
    [("x", 50)] ⟨280, 3⟩ h).1,
    (c3_row_never_drawn_below_bottom ⟨297, 10, 20⟩ (fun _ _ => 2)
    [("x", 50)] ⟨280, 3⟩ h).2⟩

/-- Claim C9: a collected component name with no entry in the components map is
skipped by addTagComponents (its section is omitted), the remaining names render
normally, and the function is total, so the conversion never fails on absent
data. -/
theorem c9_missing_component_omitted (names : List String)
    (components : List (String × Schema)) (n : String)
    (h : components.lookup n = none) :
    n ∉ (renderedTagComponents names components).map Prod.fst ∧
    (renderedTagComponents names components).map Prod.fst =
      names.filter fun m => (components.lookup m).isSome := by
  refine ⟨?_, renderedTagComponents_fst names components⟩
  rw [renderedTagComponents_fst names components]
  intro hmem
  have := (List.mem_filter.mp hmem).2
  rw [h] at this
  exact Bool.noConfusion this

/-- Witness for C9: the collected names Gadget and Widget against a components map
holding only Widget; Gadget is skipped, Widget renders. -/
theorem c9_missing_component_omitted_witness :
    ([("Widget", Schema.mk "object" "" "" [] none "")] :
        List (String × Schema)).lookup "Gadget" = none ∧
    "Gadget" ∉ (renderedTagComponents ["Gadget", "Widget"]
      [("Widget", Schema.mk "object" "" "" [] none "")]).map Prod.fst ∧
    (renderedTagComponents ["Gadget", "Widget"]
      [("Widget", Schema.mk "object" "" "" [] none "")]).map Prod.fst =
      ["Widget"] := by
  have h : ([("Widget", Schema.mk "object" "" "" [] none "")] :
      List (String × Schema)).lookup "Gadget" = none := by decide
  have hmain := c9_missing_component_omitted ["Gadget", "Widget"]
    [("Widget", Schema.mk "object" "" "" [] none "")] "Gadget" h
  exact ⟨h, hmain.1, by decide⟩

/-- Claim C10: when the render pass looks up a component link key that was never
allocated, the Go map read yields 0, and addTableRow renders that cell in the
default text style with no clickable region overlaid; rendering continues (the
cell is still produced). -/
theorem c10_missing_link_renders_plain (doc : OpenAPIDocument)
    (tag name content : String)
    (h : componentLinks doc (tag ++ ":" ++ name) = none) :
    goMapGet (componentLinks doc) (tag ++ ":" ++ name) = 0 ∧
    renderCell content (goMapGet (componentLinks doc) (tag ++ ":" ++ name)) =
      ⟨content, false, none⟩ := by
  have h0 : goMapGet (componentLinks doc) (tag ++ ":" ++ name) = 0 := by
    simp [goMapGet, h]
  refine ⟨h0, ?_⟩
  rw [h0]
  simp [renderCell]

/-- Witness for C10: a document with no components allocates no link for the
Billing:Widget key, and the cell for Widget renders unstyled and unlinked. -/
theorem c10_missing_link_renders_plain_witness :
    componentLinks ⟨"", "", "", [], [], [], []⟩ ("Billing" ++ ":" ++ "Widget") =
      none ∧
    renderCell "Widget" (goMapGet
      (componentLinks ⟨"", "", "", [], [], [], []⟩)
      ("Billing" ++ ":" ++ "Widget")) = ⟨"Widget", false, none⟩ := by
  have h : componentLinks (⟨"", "", "", [], [], [], []⟩ : OpenAPIDocument)
      ("Billing" ++ ":" ++ "Widget") = none := by decide
  exact ⟨h, (c10_missing_link_renders_plain _ "Billing" "Widget" "Widget" h).2⟩

/-- The two iteration orders Go may choose for the same two-entry response Content
map: one media type referencing schema A, the other referencing schema B. -/
def respMediaA : MediaType := ⟨.mk "" "" "" [] none "A", none, []⟩

/-- Second media type of the C2 counterexample content map. -/
def respMediaB : MediaType := ⟨.mk "" "" "" [] none "B", none, []⟩

/-- One iteration order of the C2 response content map. -/
def respOrder1 : List (String × MediaType) :=
  [("application/json", respMediaA), ("application/xml", respMediaB)]

/-- The other iteration order of the same map. -/
def respOrder2 : List (String × MediaType) :=
  [("application/xml", respMediaB), ("application/json", respMediaA)]

/-- Claim C2 is violated by the source: addResponseTable ranges over the response
Content map without sorting it, so two iteration orders of the same map (which Go
randomises between runs) put different schema names in the Object column of the
responses table.  The two lists below are permutations of each other with distinct
keys, i.e. the same map. -/
theorem c2_object_column_depends_on_iteration_order :
    respOrder1.Perm respOrder2 ∧
    (respOrder1.map Prod.fst).Nodup ∧
    respObjectCell respOrder1 "" = "A" ∧
    respObjectCell respOrder2 "" = "B" ∧
    respObjectCell respOrder1 "" ≠ respObjectCell respOrder2 "" := by
  refine ⟨?_, by decide, by decide, by decide, by decide⟩
  exact List.Perm.swap ("application/xml", respMediaB)
    ("application/json", respMediaA) []

/-! ### C5: per-tag endpoint sorting -/

/-- The sort key of an endpoint: its path, then its method. -/
def epKey (e : EndpointRef) : String × String :=
  (e.path, e.method)

/-- The key order: path ascending, then method ascending. -/
def keyLE (a b : String × String) : Prop :=
  a.1 < b.1 ∨ (a.1 = b.1 ∧ a.2 ≤ b.2)

instance : IsAntisymm (String × String) keyLE where
  antisymm a b hab hba := by
    rcases hab with h1 | ⟨h1, m1⟩
    · rcases hba with h2 | ⟨h2, _⟩
      · exact absurd h2 (lt_asymm h1)
      · exact absurd h1 (h2 ▸ lt_irrefl _)
    · rcases hba with h2 | ⟨h2, m2⟩
      · exact absurd h2 (h1 ▸ lt_irrefl _)
      · exact Prod.ext h1.symm.symm (le_antisymm m1 m2)

instance : IsTrans (String × String) keyLE where
  trans a b c hab hbc := by
    rcases hab with h1 | ⟨h1, m1⟩
    · rcases hbc with h2 | ⟨h2, _⟩
      · exact Or.inl (h1.trans h2)
      · exact Or.inl (h2 ▸ h1)
    · rcases hbc with h2 | ⟨h2, m2⟩
      · exact Or.inl (h1 ▸ h2)
      · exact Or.inr ⟨h1.trans h2, m1.trans m2⟩

/-- epLE is exactly keyLE on the keys. -/
theorem epLE_iff_keyLE (a b : EndpointRef) : epLE a b ↔ keyLE (epKey a) (epKey b) :=
  Iff.rfl

/-- Claim C5: for every document and tag, the list groupPathsByTag produces is
sorted by (path ascending, method ascending) under plain lexicographic string
comparison, is a permutation of the endpoints grouped under that tag, and the
resulting key sequence is independent of the order of paths and operations in the
input document: any document whose grouped endpoints are a permutation of them
sorts to the same (path, method) sequence. -/
theorem c5_endpoints_sorted_by_path_method (doc : OpenAPIDocument) (t : String) :
    List.Sorted epLE (groupPathsByTag doc t) ∧
    (groupPathsByTag doc t).Perm (tagRefsPre doc t) ∧
    ∀ doc2 : OpenAPIDocument, (tagRefsPre doc t).Perm (tagRefsPre doc2 t) →
      (groupPathsByTag doc t).map epKey = (groupPathsByTag doc2 t).map epKey := by
  refine ⟨List.sorted_insertionSort epLE _, List.perm_insertionSort epLE _, ?_⟩
  intro doc2 hp
  have hperm : ((groupPathsByTag doc t).map epKey).Perm
      ((groupPathsByTag doc2 t).map epKey) :=
    (((List.perm_insertionSort epLE _).trans hp).trans
      (List.perm_insertionSort epLE _).symm).map epKey
  have hs1 : List.Sorted keyLE ((groupPathsByTag doc t).map epKey) :=
    List.pairwise_map.mpr (List.sorted_insertionSort epLE _)
  have hs2 : List.Sorted keyLE ((groupPathsByTag doc2 t).map epKey) :=
    List.pairwise_map.mpr (List.sorted_insertionSort epLE _)
  exact List.eq_of_perm_of_sorted hperm hs1 hs2

/-- A minimal operation used by concrete witness documents. -/
def bareOp (method : String) : Operation :=
  ⟨method, "", "", "", [], [], none, []⟩

/-- Witness document for C5, spec example order: POST /b, GET /a, GET /b. -/
def c5doc1 : OpenAPIDocument :=
  ⟨"", "", "", [], [],
    [⟨"/b", [bareOp "POST", bareOp "GET"]⟩, ⟨"/a", [bareOp "GET"]⟩], []⟩

/-- Witness document for C5 with the same endpoints in another order. -/
def c5doc2 : OpenAPIDocument :=
  ⟨"", "", "", [], [],
    [⟨"/a", [bareOp "GET"]⟩, ⟨"/b", [bareOp "GET", bareOp "POST"]⟩], []⟩

/-- Witness for C5: both orderings of the spec example sort to
GET /a, GET /b, POST /b. -/
theorem c5_endpoints_sorted_by_path_method_witness :
    (tagRefsPre c5doc1 "Default").Perm (tagRefsPre c5doc2 "Default") ∧
    (groupPathsByTag c5doc1 "Default").map epKey =
      (groupPathsByTag c5doc2 "Default").map epKey ∧
    (groupPathsByTag c5doc1 "Default").map epKey =
      [("/a", "GET"), ("/b", "GET"), ("/b", "POST")] := by
  have hp : (tagRefsPre c5doc1 "Default").Perm (tagRefsPre c5doc2 "Default") := by
    decide
  exact ⟨hp,
    (c5_endpoints_sorted_by_path_method c5doc1 "Default").2.2 c5doc2 hp,
    by decide⟩

/-! ### C6: per-tag component collection -/

/-- Claim C6: for every endpoint list, collectTagComponents returns a
lexicographically sorted, duplicate-free list whose members are exactly the schema
reference names reachable from the request-body media types, response
media types and parameter schemas, recursing through object properties and array
items (endpointSchemaRefs); a name referenced any number of times appears exactly
once. -/
theorem c6_components_sorted_dedup (eps : List EndpointRef) :
    List.Sorted (· ≤ ·) (collectTagComponents eps) ∧
    (collectTagComponents eps).Nodup ∧
    ∀ n : String, n ∈ collectTagComponents eps ↔
      n ∈ eps.flatMap endpointSchemaRefs := by
  refine ⟨List.sorted_insertionSort _ _, ?_, fun n => ?_⟩
  · exact ((List.perm_insertionSort _ _).nodup_iff).mpr (List.nodup_dedup _)
  · simp only [collectTagComponents]
    rw [(List.perm_insertionSort (α := String) (· ≤ ·) _).mem_iff, List.mem_dedup]

/-! ### C7: one endpointRef per effective tag, full payload -/

/-- Claim C7: the effective tag set of an operation is its declared tag list, or
the singleton Default when that list is empty; one operation yields exactly one
endpointRef per effective tag, filed under exactly those tags, each carrying the
whole operation value (parameters, request body, responses included, by structural
equality, not a shared reference); and for an operation of a document, the
endpointRef reaches the grouped list of each of its effective tags. -/
theorem c7_endpoint_per_effective_tag (p : Path) (op : Operation) :
    effectiveTags op = (if op.tags = [] then ["Default"] else op.tags) ∧
    (opRefs p op).length = (effectiveTags op).length ∧
    (opRefs p op).map Prod.fst = effectiveTags op ∧
    (∀ x ∈ opRefs p op, x.2 = ⟨p.path, op.method, op⟩) ∧
    ∀ (doc : OpenAPIDocument) (t : String), p ∈ doc.paths → op ∈ p.operations →
      t ∈ effectiveTags op →
      (⟨p.path, op.method, op⟩ : EndpointRef) ∈ groupPathsByTag doc t := by
  refine ⟨rfl, by simp [opRefs], by simp [opRefs, Function.comp_def], ?_, ?_⟩
  · intro x hx
    obtain ⟨t, _, rfl⟩ := List.mem_map.mp hx
    rfl
  · intro doc t hp hop ht
    have hpair : (t, (⟨p.path, op.method, op⟩ : EndpointRef)) ∈ taggedRefs doc := by
      simp only [taggedRefs, List.mem_flatMap]
      exact ⟨p, hp, op, hop, List.mem_map_of_mem _ ht⟩
    have hpre : (⟨p.path, op.method, op⟩ : EndpointRef) ∈ tagRefsPre doc t := by
      simp only [tagRefsPre, List.mem_filterMap]
      exact ⟨(t, ⟨p.path, op.method, op⟩), hpair, by rw [if_pos rfl]⟩
    exact ((List.perm_insertionSort epLE _).mem_iff).mpr hpre

/-- Witness operation for C7, tagged Billing and Admin as in the spec example. -/
def c7op : Operation :=
  ⟨"POST", "", "", "", ["Billing", "Admin"],
    [⟨"id", "query", "", true, .mk "string" "" "" [] none ""⟩], none,
    [⟨"200", "ok", []⟩]⟩

/-- Witness path for C7. -/
def c7path : Path := ⟨"/w", [c7op]⟩

/-- Witness document for C7. -/
def c7doc : OpenAPIDocument := ⟨"", "", "", [], [], [c7path], []⟩

/-- Witness for C7: the Billing/Admin operation yields exactly two endpointRefs and
lands, with its full payload, in the grouped lists of both tags. -/
theorem c7_endpoint_per_effective_tag_witness :
    (c7op.tags = [] ) = False ∧
    (opRefs c7path c7op).length = 2 ∧
    (⟨"/w", "POST", c7op⟩ : EndpointRef) ∈ groupPathsByTag c7doc "Billing" ∧
    (⟨"/w", "POST", c7op⟩ : EndpointRef) ∈ groupPathsByTag c7doc "Admin" := by
  have h := c7_endpoint_per_effective_tag c7path c7op
  refine ⟨by simp [c7op], ?_, ?_, ?_⟩
  · rw [h.2.1]; decide
  · exact h.2.2.2.2 c7doc "Billing" (by decide) (by decide) (by decide)
  · exact h.2.2.2.2 c7doc "Admin" (by decide) (by decide) (by decide)

/-! ### C1: pass-1 allocation and pass-2 consumption agree -/

/-- Number of TOC entries the tag sections contribute: one per tag plus one per
endpoint. -/
def tocCount : List (String × List EndpointRef) → Nat
  | [] => 0
  | (_, eps) :: rest => 1 + eps.length + tocCount rest

/-- Helper: the endpoint TOC entries of one tag count its endpoints. -/
theorem epTocItems_length (es : List EndpointRef) (n : Nat) :
    (epTocItems es n).length = es.length := by
  induction es generalizing n with
  | nil => rfl
  | cons e es ih => simp [epTocItems, ih]

/-- Helper: the tag-section TOC entries count tags plus endpoints, whatever link
counter they start from. -/
theorem tagTocItems_length (l : List (String × List EndpointRef)) (n : Nat) :
    (tagTocItems l n).length = tocCount l := by
  induction l generalizing n with
  | nil => rfl
  | cons x rest ih =>
    obtain ⟨t, eps⟩ := x
    simp [tagTocItems, tocCount, epTocItems_length, ih]
    omega

/-- Helper: the endpoint setLinkDest calls of one tag consume consecutive
indices. -/
theorem epConsume_eq_range (es : List EndpointRef) (n : Nat) :
    epConsume es n = List.range' n es.length := by
  induction es generalizing n with
  | nil => rfl
  | cons e es ih => rw [epConsume, List.length_cons, List.range'_succ, ih]

/-- Helper: the tag-section setLinkDest calls consume consecutive indices, as many
as there are tag-section TOC entries. -/
theorem tagConsume_eq_range (l : List (String × List EndpointRef)) (n : Nat) :
    tagConsume l n = List.range' n (tocCount l) := by
  induction l generalizing n with
  | nil => rfl
  | cons x rest ih =>
    obtain ⟨t, eps⟩ := x
    have happ := List.range'_append (n + 1) eps.length (tocCount rest) 1
    simp only [one_mul] at happ
    rw [tagConsume, epConsume_eq_range, ih, happ]
    rw [show tocCount ((t, eps) :: rest) = (tocCount rest + eps.length) + 1 by
      simp [tocCount]; omega]
    rw [List.range'_succ]

/-- Helper: peeling the two leading indices off a consecutive range. -/
theorem range'_cons_cons (n k : Nat) :
    List.range' n (k + 2) = n :: (n + 1) :: List.range' (n + 2) k := by
  rw [List.range'_succ, List.range'_succ]

/-- Claim C1: for every document, the sequence of tocItems indices the render pass
(addContent) feeds to setLinkDest is exactly 0, 1, ..., length tocItems - 1: the
number of TOC link targets allocated in the planning pass equals the number of
positions bound in the render pass, each TOC target is bound exactly once, none is
skipped, and the binding order is the allocation order. -/
theorem c1_toc_targets_allocated_eq_consumed (doc : OpenAPIDocument) :
    consumedIndices doc = List.range (tocItems doc).length := by
  rw [List.range_eq_range']
  rcases eq_or_ne doc.servers [] with h | h
  · have hlen : (tocItems doc).length = tocCount (tagBlocks doc) + 2 := by
      simp [tocItems, h, tagTocItems_length]
    rw [hlen, range'_cons_cons]
    simp only [consumedIndices, serversLinkCount, h, if_pos rfl]
    rw [tagConsume_eq_range]
    simp
  · have hlen : (tocItems doc).length = (tocCount (tagBlocks doc) + 1) + 2 := by
      simp [tocItems, h, tagTocItems_length]
    rw [hlen, range'_cons_cons, List.range'_succ]
    simp only [consumedIndices, serversLinkCount, h, if_neg h]
    rw [tagConsume_eq_range]
    simp

/-! ### C4: the TOC entry structure -/

/-- Helper: titles and levels of the endpoint TOC entries of one tag. -/
theorem epTocItems_shape (es : List EndpointRef) (n : Nat) :
    (epTocItems es n).map (fun i => (i.title, i.level)) =
      es.map fun e => (e.method ++ " " ++ e.path, 3) := by
  induction es generalizing n with
  | nil => rfl
  | cons e es ih => simp [epTocItems, ih]

/-- Helper: titles and levels of the tag-section TOC entries. -/
theorem tagTocItems_shape (l : List (String × List EndpointRef)) (n : Nat) :
    (tagTocItems l n).map (fun i => (i.title, i.level)) =
      l.flatMap fun x =>
        (x.1, 2) :: x.2.map fun e => (e.method ++ " " ++ e.path, 3) := by
  induction l generalizing n with
  | nil => rfl
  | cons x rest ih =>
    obtain ⟨t, eps⟩ := x
    simp [tagTocItems, epTocItems_shape, ih]

/-- Claim C4: for every document the TOC entry sequence is exactly Overview at
level 1, Servers at level 1 present precisely when the server list is non-empty,
API Endpoints at level 1, then for each tag in lexicographic order a level-2 entry
titled with the tag followed by one level-3 entry "METHOD path" per sorted
endpoint of that tag. -/
theorem c4_toc_structure (doc : OpenAPIDocument) :
    (tocItems doc).map (fun i => (i.title, i.level)) =
      ("Overview", 1) ::
        ((if doc.servers = [] then [] else [("Servers", 1)]) ++
          ("API Endpoints", 1) ::
            ((sortedTags doc).flatMap fun t =>
              (t, 2) :: (groupPathsByTag doc t).map
                fun e => (e.method ++ " " ++ e.path, 3))) := by
  rcases eq_or_ne doc.servers [] with h | h <;>
    simp [tocItems, h, tagTocItems_shape, tagBlocks, List.flatMap_map,
      Function.comp_def]

/-! ### C8: per-tag component link targets -/

/-- Helper: an identifier assignIDs hands out lies in the window of the written
keys. -/
theorem assignIDs_bounds :
    ∀ {keys : List String} {s : Nat} {q : String} {v : Nat},
      assignIDs keys s q = some v → s ≤ v ∧ v < s + keys.length := by
  intro keys
  induction keys with
  | nil => intro s q v h; exact absurd h (by simp [assignIDs])
  | cons k ks ih =>
    intro s q v h
    rw [assignIDs] at h
    cases h2 : assignIDs ks (s + 1) q with
    | some w =>
      rw [h2] at h
      obtain rfl : w = v := Option.some.injEq .. ▸ congrArg (Option.getD · 0) h
      have := ih h2
      simp only [List.length_cons]
      omega
    | none =>
      rw [h2] at h
      by_cases hq : q = k
      · rw [if_pos hq] at h
        obtain rfl : s = v := Option.some.injEq .. ▸ congrArg (Option.getD · 0) h
        simp only [List.length_cons]
        omega
      · rw [if_neg hq] at h
        exact absurd h (by simp)

/-- Helper: every written key is present in the finished map. -/
theorem assignIDs_mem :
    ∀ {keys : List String} (s : Nat) {q : String},
      q ∈ keys → ∃ v, assignIDs keys s q = some v := by
  intro keys
  induction keys with
  | nil => intro s q h; exact absurd h (List.not_mem_nil q)
  | cons k ks ih =>
    intro s q h
    rw [assignIDs]
    cases h2 : assignIDs ks (s + 1) q with
    | some w => exact ⟨w, rfl⟩
    | none =>
      rcases List.mem_cons.mp h with rfl | htail
      · exact ⟨s, by rw [if_pos rfl]⟩
      · obtain ⟨w, hw⟩ := ih (s + 1) htail
        exact absurd hw (by rw [h2]; simp)

/-- Helper: distinct keys receive distinct identifiers (the write for a key comes
from a unique position of the sequential AddLink counter). -/
theorem assignIDs_inj :
    ∀ {keys : List String} {s : Nat} {q1 q2 : String} {v1 v2 : Nat},
      q1 ≠ q2 → assignIDs keys s q1 = some v1 →
      assignIDs keys s q2 = some v2 → v1 ≠ v2 := by
  intro keys
  induction keys with
  | nil => intro s q1 q2 v1 v2 _ h1; exact absurd h1 (by simp [assignIDs])
  | cons k ks ih =>
    intro s q1 q2 v1 v2 hne h1 h2
    rw [assignIDs] at h1 h2
    cases ha : assignIDs ks (s + 1) q1 with
    | some w1 =>
      rw [ha] at h1
      obtain rfl : w1 = v1 := Option.some.injEq .. ▸ congrArg (Option.getD · 0) h1
      cases hb : assignIDs ks (s + 1) q2 with
      | some w2 =>
        rw [hb] at h2
        obtain rfl : w2 = v2 :=
          Option.some.injEq .. ▸ congrArg (Option.getD · 0) h2
        exact ih hne ha hb
      | none =>
        rw [hb] at h2
        by_cases hq : q2 = k
        · rw [if_pos hq] at h2
          obtain rfl : s = v2 :=
            Option.some.injEq .. ▸ congrArg (Option.getD · 0) h2
          have := assignIDs_bounds ha
          omega
        · rw [if_neg hq] at h2
          exact absurd h2 (by simp)
    | none =>
      rw [ha] at h1
      by_cases hq1 : q1 = k
      · rw [if_pos hq1] at h1
        obtain rfl : s = v1 := Option.some.injEq .. ▸ congrArg (Option.getD · 0) h1
        cases hb : assignIDs ks (s + 1) q2 with
        | some w2 =>
          rw [hb] at h2
          obtain rfl : w2 = v2 :=
            Option.some.injEq .. ▸ congrArg (Option.getD · 0) h2
          have := assignIDs_bounds hb
          omega
        | none =>
          rw [hb] at h2
          by_cases hq2 : q2 = k
          · exact absurd (hq1.trans hq2.symm) hne
          · rw [if_neg hq2] at h2
            exact absurd h2 (by simp)
      · rw [if_neg hq1] at h1
        exact absurd h1 (by simp)

/-- Helper: distinct tags produce distinct component-link keys for the same
schema name: the ":" ++ name suffix cancels. -/
theorem compKey_injective_on_tags (t1 t2 n : String) (h : t1 ≠ t2) :
    t1 ++ ":" ++ n ≠ t2 ++ ":" ++ n := by
  intro he
  apply h
  have hd : (t1 ++ ":" ++ n).data = (t2 ++ ":" ++ n).data :=
    congrArg String.data he
  simp only [String.data_append] at hd
  rw [List.append_assoc, List.append_assoc] at hd
  exact String.ext (List.append_cancel_right hd)

/-- Helper: the component-link key of a collected component of a tag is written
during pass 1. -/
theorem mem_compKeys {doc : OpenAPIDocument} {t n : String}
    (ht : t ∈ sortedTags doc)
    (hn : n ∈ collectTagComponents (groupPathsByTag doc t)) :
    (t ++ ":" ++ n) ∈ compKeys doc := by
  simp only [compKeys, List.mem_flatMap]
  exact ⟨t, ht, List.mem_map_of_mem _ hn⟩

/-- Helper: a collected component with an existing schema and an allocated target
is bound by addTagComponents inside the section of its own tag. -/
theorem mem_tagComponentBindings {doc : OpenAPIDocument} {t n : String} {v : Nat}
    (hn : n ∈ collectTagComponents (groupPathsByTag doc t))
    (hs : (doc.components.lookup n).isSome = true)
    (hv : componentLinks doc (t ++ ":" ++ n) = some v) :
    (n, v) ∈ tagComponentBindings doc t := by
  simp only [tagComponentBindings, List.mem_filterMap]
  refine ⟨n, hn, ?_⟩
  rw [if_pos hs, hv]

/-- Claim C8: a schema name collected under two distinct tags gets two distinct
link targets (the key is the (tag, name) pair), and each target is bound by the
render pass inside the section of its own tag (the bind event for tag t1 sits in
the t1 segment of componentBindings, likewise for t2). -/
theorem c8_distinct_targets_per_tag (doc : OpenAPIDocument) (t1 t2 n : String)
    (hne : t1 ≠ t2)
    (h1 : t1 ∈ sortedTags doc) (h2 : t2 ∈ sortedTags doc)
    (hc1 : n ∈ collectTagComponents (groupPathsByTag doc t1))
    (hc2 : n ∈ collectTagComponents (groupPathsByTag doc t2))
    (hex : (doc.components.lookup n).isSome = true) :
    ∃ v1 v2,
      componentLinks doc (t1 ++ ":" ++ n) = some v1 ∧
      componentLinks doc (t2 ++ ":" ++ n) = some v2 ∧
      v1 ≠ v2 ∧
      (n, v1) ∈ tagComponentBindings doc t1 ∧
      (n, v2) ∈ tagComponentBindings doc t2 ∧
      (t1, n, v1) ∈ componentBindings doc ∧
      (t2, n, v2) ∈ componentBindings doc := by
  obtain ⟨v1, hv1⟩ := assignIDs_mem (compStart doc) (mem_compKeys h1 hc1)
  obtain ⟨v2, hv2⟩ := assignIDs_mem (compStart doc) (mem_compKeys h2 hc2)
  have hb1 : (n, v1) ∈ tagComponentBindings doc t1 :=
    mem_tagComponentBindings hc1 hex hv1
  have hb2 : (n, v2) ∈ tagComponentBindings doc t2 :=
    mem_tagComponentBindings hc2 hex hv2
  refine ⟨v1, v2, hv1, hv2,
    assignIDs_inj (compKey_injective_on_tags t1 t2 n hne) hv1 hv2, hb1, hb2, ?_, ?_⟩
  · simp only [componentBindings, List.mem_flatMap]
    exact ⟨t1, h1, List.mem_map.mpr ⟨(n, v1), hb1, rfl⟩⟩
  · simp only [componentBindings, List.mem_flatMap]
    exact ⟨t2, h2, List.mem_map.mpr ⟨(n, v2), hb2, rfl⟩⟩

/-- Witness operation for C8: a GET whose 200 response references the Widget
component schema, filed under the given tag. -/
def c8op (tag : String) : Operation :=
  ⟨"GET", "", "", "", [tag], [], none,
    [⟨"200", "",
      [("application/json",
        ⟨.mk "" "" "" [] none "#/components/schemas/Widget", none, []⟩)]⟩]⟩

/-- Witness document for C8: Widget referenced under both Billing and
Shipping. -/
def c8doc : OpenAPIDocument :=
  ⟨"", "", "", [], [],
    [⟨"/b", [c8op "Billing"]⟩, ⟨"/s", [c8op "Shipping"]⟩],
    [("Widget", .mk "object" "" "" [] none "")]⟩

/-- Witness for C8: Widget collected under Billing and under Shipping receives two
distinct link targets, each bound in its own tag section. -/
theorem c8_distinct_targets_per_tag_witness :
    ("Billing" ∈ sortedTags c8doc ∧ "Shipping" ∈ sortedTags c8doc ∧
      "Widget" ∈ collectTagComponents (groupPathsByTag c8doc "Billing") ∧
      "Widget" ∈ collectTagComponents (groupPathsByTag c8doc "Shipping") ∧
      (c8doc.components.lookup "Widget").isSome = true) ∧
    ∃ v1 v2,
      componentLinks c8doc ("Billing" ++ ":" ++ "Widget") = some v1 ∧
      componentLinks c8doc ("Shipping" ++ ":" ++ "Widget") = some v2 ∧
      v1 ≠ v2 ∧
      (("Widget", v1) ∈ tagComponentBindings c8doc "Billing" ∧
        ("Widget", v2) ∈ tagComponentBindings c8doc "Shipping") := by
  refine ⟨⟨by decide, by decide, by decide, by decide, by decide⟩, ?_⟩
  obtain ⟨v1, v2, hv1, hv2, hvne, hb1, hb2, _, _⟩ :=
    c8_distinct_targets_per_tag c8doc "Billing" "Shipping" "Widget"
      (by decide) (by decide) (by decide) (by decide) (by decide) (by decide)
  exact ⟨v1, v2, hv1, hv2, hvne, hb1, hb2⟩

end OpenAPIConv
